import Mathlib

/-!
Shallow embedding of the protocol-state core of the revault-gui repository.

The embedding keeps the structure of the Rust source:
  - src/app/state/sign.rs       : SignState, SignMethod and their update function
  - src/ui/state/vault.rs       : VaultSection (Delegate and Acknowledge sections)
  - src/ui/state/manager.rs     : ManagerCreateSendTransactionState and balance aggregation
  - src/ui/state/stakeholder.rs : StakeholderHomeState.calculate_balance

View/rendering fields of the Rust structs are pure presentation and are dropped;
everything that the update functions read or write is kept.  External library
calls (base64 decode plus consensus deserialize of a PSBT, bitcoin amount and
address parsing) are parameters of the embedded functions, so theorems quantify
over them.  Rust panics (unwrap/expect/Vec::remove out of bounds) are modelled
by returning none from the embedded update.
-/

/-- Model of a partially signed bitcoin transaction.  Only the identity of the
underlying unsigned transaction (txid, the value compared by the source) and an
abstract payload distinguishing different signature sets are kept. -/
structure Psbt where
  txid : Nat
  payload : Nat
deriving Repr, DecidableEq

/-- Modelled from the spec: the kind tag of a transaction envelope, listed in
the data model section as Unvault, Emergency, EmergencyUnvault, Cancel, Spend
(the defining file src/revault.rs is not part of the sources). -/
inductive TransactionKind where
  | unvault
  | emergency
  | emergencyUnvault
  | cancel
  | spend
deriving Repr, DecidableEq

/-- Modelled from the spec: the sharing status of a signature collector; the
collector starts unshared and notifySuccess moves it to the terminal shared
display state (the defining message module is not part of the sources). -/
inductive SignatureSharingStatus where
  | unshared
  | success
deriving Repr, DecidableEq

/-- SignMethod from src/app/state/sign.rs, views dropped. -/
inductive SignMethod where
  | directSignature
  | indirectSignature (warning : Option String) (psbt_input : String)
deriving Repr, DecidableEq

/-- SignState from src/app/state/sign.rs, views dropped.  The same state type
is the one vault.rs and manager.rs instantiate for their signers. -/
structure SignState where
  original_psbt : Psbt
  signed_psbt : Option Psbt
  transaction_kind : TransactionKind
  sharing_status : SignatureSharingStatus
  method : SignMethod
deriving Repr, DecidableEq

/-- SignMessage variants handled by SignState::update; the remaining variants
of the source enum fall into its catch-all arm and are represented by other. -/
inductive SignMessage where
  | success
  | psbtEdited (psbt : String)
  | sign
  | changeMethod
  | other
deriving Repr, DecidableEq

/-- SignState::new from src/app/state/sign.rs. -/
def SignState.new (original_psbt : Psbt) (transaction_kind : TransactionKind) : SignState :=
  { original_psbt := original_psbt
    transaction_kind := transaction_kind
    signed_psbt := none
    sharing_status := SignatureSharingStatus.unshared
    method := SignMethod.directSignature }

/-- Warning string of the decode failure branch in src/app/state/sign.rs. -/
def warnEnterValidPsbt : String := "Please enter valid PSBT"

/-- Warning string of the identity mismatch branch in src/app/state/sign.rs. -/
def warnNotTargeted : String := "PSBT is not the targeted transaction to sign"

/-- SignState::update from src/app/state/sign.rs.  decode stands for the
external base64 decode composed with consensus deserialize. -/
def SignState.update (decode : String → Option Psbt) (s : SignState)
    (message : SignMessage) : SignState :=
  match message with
  | SignMessage.success => { s with sharing_status := SignatureSharingStatus.success }
  | SignMessage.psbtEdited psbt =>
    match s.method with
    | SignMethod.indirectSignature _ _ =>
      { s with method := SignMethod.indirectSignature none psbt }
    | _ => s
  | SignMessage.sign =>
    match s.method with
    | SignMethod.indirectSignature _warning psbt_input =>
      if psbt_input.isEmpty then s
      else
        match decode psbt_input with
        | some signed =>
          if signed.txid ≠ s.original_psbt.txid then
            { s with
                signed_psbt := none
                method := SignMethod.indirectSignature (some warnNotTargeted) psbt_input }
          else { s with signed_psbt := some signed }
        | none =>
          { s with
              signed_psbt := none
              method := SignMethod.indirectSignature (some warnEnterValidPsbt) psbt_input }
    | _ => s
  | SignMessage.changeMethod =>
    match s.method with
    | SignMethod.directSignature =>
      { s with method := SignMethod.indirectSignature none ("") }
    | _ => { s with method := SignMethod.directSignature }
  | SignMessage.other => s

/-- Reachable states of one signature collector: the initial state built by
SignState::new followed by any sequence of update calls with a fixed decoder. -/
inductive SignReachable (decode : String → Option Psbt) : SignState → Prop where
  | init (p : Psbt) (k : TransactionKind) : SignReachable decode (SignState.new p k)
  | step (s : SignState) (m : SignMessage) :
      SignReachable decode s → SignReachable decode (s.update decode m)

theorem SignState.update_kind (decode : String → Option Psbt) (s : SignState)
    (m : SignMessage) : (s.update decode m).transaction_kind = s.transaction_kind := by
  cases m with
  | success => rfl
  | psbtEdited p => cases h : s.method <;> simp [SignState.update, h]
  | sign =>
    cases h : s.method with
    | directSignature => simp [SignState.update, h]
    | indirectSignature w inp =>
      simp only [SignState.update, h]
      split
      · rfl
      · split
        · split <;> rfl
        · rfl
  | changeMethod => cases h : s.method <;> simp [SignState.update, h]
  | other => rfl

theorem SignState.update_original (decode : String → Option Psbt) (s : SignState)
    (m : SignMessage) : (s.update decode m).original_psbt = s.original_psbt := by
  cases m with
  | success => rfl
  | psbtEdited p => cases h : s.method <;> simp [SignState.update, h]
  | sign =>
    cases h : s.method with
    | directSignature => simp [SignState.update, h]
    | indirectSignature w inp =>
      simp only [SignState.update, h]
      split
      · rfl
      · split
        · split <;> rfl
        · rfl
  | changeMethod => cases h : s.method <;> simp [SignState.update, h]
  | other => rfl

/-- Error enum of the ui error module; only the variants the embedded update
functions construct are kept. -/
inductive UiError where
  | revaultDError (message : String)
  | unexpectedError (message : String)
deriving Repr, DecidableEq

/-- RevocationTransactions from revaultd::model as described by the spec RPC
surface: the unsigned emergency, emergency-unvault and cancel transactions. -/
structure RevocationTransactions where
  emergency_tx : Psbt
  emergency_unvault_tx : Psbt
  cancel_tx : Psbt
deriving Repr, DecidableEq

/-- Result of a daemon RPC call, as delivered back to an update function. -/
inductive RpcResult (α : Type) where
  | ok (value : α)
  | err (message : String)
deriving Repr, DecidableEq

/-- VaultMessage variants reaching VaultSection::update in src/ui/state/vault.rs;
all other variants of the source enum hit its catch-all arm and are represented
by other. -/
inductive VaultMessage where
  | signed (res : RpcResult Unit)
  | sign (msg : SignMessage)
  | other
deriving Repr, DecidableEq

/-- Daemon commands VaultSection::update can return (Command::none, the
set_unvault_tx call and the set_revocation_txs call from state/cmd.rs). -/
inductive VaultCmd where
  | none
  | setUnvaultTx (outpoint : String) (psbt : Psbt)
  | setRevocationTxs (outpoint : String) (emergency : Psbt)
      (emergencyUnvault : Psbt) (cancel : Psbt)
deriving Repr, DecidableEq

/-- VaultSection from src/ui/state/vault.rs, views dropped.  The Acknowledge
variant pairs each revocation transaction with its signed flag. -/
inductive VaultSection where
  | unloaded
  | onchainTransactions
  | delegate (signer : SignState) (warning : Option UiError)
  | acknowledge (emergency_tx : Psbt × Bool) (emergency_unvault_tx : Psbt × Bool)
      (cancel_tx : Psbt × Bool) (warning : Option UiError) (signer : SignState)
deriving Repr, DecidableEq

/-- VaultSection::new_ack_section from src/ui/state/vault.rs. -/
def VaultSection.new_ack_section (txs : RevocationTransactions) : VaultSection :=
  VaultSection.acknowledge (txs.emergency_tx, false) (txs.emergency_unvault_tx, false)
    (txs.cancel_tx, false) none (SignState.new txs.emergency_tx TransactionKind.emergency)

/-- VaultSection::new_delegate_section from src/ui/state/vault.rs. -/
def VaultSection.new_delegate_section (unvault_tx : Psbt) : VaultSection :=
  VaultSection.delegate (SignState.new unvault_tx TransactionKind.unvault) none

/-- VaultSection::update from src/ui/state/vault.rs.  outpoint is the outpoint
of the vault the section belongs to; the returned VaultCmd is the iced Command
the source returns. -/
def VaultSection.update (decode : String → Option Psbt) (outpoint : String)
    (s : VaultSection) (message : VaultMessage) : VaultSection × VaultCmd :=
  match message with
  | VaultMessage.signed res =>
    match s with
    | VaultSection.delegate signer warning =>
      match res with
      | RpcResult.ok _ =>
        (VaultSection.delegate (signer.update decode SignMessage.success) warning,
          VaultCmd.none)
      | RpcResult.err e =>
        (VaultSection.delegate signer (some (UiError.revaultDError e)), VaultCmd.none)
    | VaultSection.acknowledge em eu ca warning signer =>
      match res with
      | RpcResult.ok _ =>
        (VaultSection.acknowledge em eu ca warning (signer.update decode SignMessage.success),
          VaultCmd.none)
      | RpcResult.err e =>
        (VaultSection.acknowledge em eu ca (some (UiError.revaultDError e)) signer,
          VaultCmd.none)
    | _ => (s, VaultCmd.none)
  | VaultMessage.sign msg =>
    match s with
    | VaultSection.delegate signer warning =>
      let signer := signer.update decode msg
      match signer.signed_psbt with
      | some psbt =>
        (VaultSection.delegate signer warning, VaultCmd.setUnvaultTx outpoint psbt)
      | none => (VaultSection.delegate signer warning, VaultCmd.none)
    | VaultSection.acknowledge em eu ca warning signer =>
      let signer := signer.update decode msg
      match signer.signed_psbt with
      | some psbt =>
        match signer.transaction_kind with
        | TransactionKind.emergency =>
          (VaultSection.acknowledge (psbt, true) eu ca warning
            (SignState.new eu.1 TransactionKind.emergencyUnvault), VaultCmd.none)
        | TransactionKind.emergencyUnvault =>
          (VaultSection.acknowledge em (psbt, true) ca warning
            (SignState.new ca.1 TransactionKind.cancel), VaultCmd.none)
        | TransactionKind.cancel =>
          (VaultSection.acknowledge em eu (psbt, true) warning signer,
            VaultCmd.setRevocationTxs outpoint em.1 eu.1 psbt)
        | _ => (VaultSection.acknowledge em eu ca warning signer, VaultCmd.none)
      | none => (VaultSection.acknowledge em eu ca warning signer, VaultCmd.none)
    | _ => (s, VaultCmd.none)
  | VaultMessage.other => (s, VaultCmd.none)

/-- Reachable states of the Acknowledge section: the section built by
new_ack_section followed by any sequence of VaultSection::update calls with a
fixed decoder and vault outpoint. -/
inductive AckReachable (decode : String → Option Psbt) (outpoint : String) :
    VaultSection → Prop where
  | init (txs : RevocationTransactions) :
      AckReachable decode outpoint (VaultSection.new_ack_section txs)
  | step (s : VaultSection) (m : VaultMessage) :
      AckReachable decode outpoint s →
      AckReachable decode outpoint (VaultSection.update decode outpoint s m).1

/-- Signing-order invariant of the Acknowledge section: the kind of the active
signer determines which chain members are already flagged signed. -/
def ackFlagsOk : VaultSection → Bool
  | VaultSection.acknowledge em eu ca _ signer =>
    match signer.transaction_kind with
    | TransactionKind.emergency => !em.2 && !eu.2 && !ca.2
    | TransactionKind.emergencyUnvault => em.2 && !eu.2 && !ca.2
    | TransactionKind.cancel => em.2 && eu.2
    | _ => false
  | _ => true

theorem ackFlagsOk_acknowledge (em eu ca : Psbt × Bool) (w : Option UiError) (sg : SignState) :
    ackFlagsOk (VaultSection.acknowledge em eu ca w sg) =
      (match sg.transaction_kind with
       | TransactionKind.emergency => !em.2 && !eu.2 && !ca.2
       | TransactionKind.emergencyUnvault => em.2 && !eu.2 && !ca.2
       | TransactionKind.cancel => em.2 && eu.2
       | _ => false) := rfl

theorem ackFlagsOk_update (decode : String → Option Psbt) (outpoint : String)
    (s : VaultSection) (m : VaultMessage) (h : ackFlagsOk s = true) :
    ackFlagsOk (VaultSection.update decode outpoint s m).1 = true := by
  cases m with
  | other => simpa [VaultSection.update] using h
  | signed res =>
    cases s with
    | unloaded => simpa [VaultSection.update] using h
    | onchainTransactions => simpa [VaultSection.update] using h
    | delegate signer warning => cases res <;> simp [VaultSection.update, ackFlagsOk]
    | acknowledge em eu ca warning signer =>
      cases res with
      | ok _ =>
        simp only [VaultSection.update]
        rw [ackFlagsOk_acknowledge] at h ⊢
        rw [SignState.update_kind]
        exact h
      | err e =>
        simp only [VaultSection.update]
        rw [ackFlagsOk_acknowledge] at h ⊢
        exact h
  | sign msg =>
    cases s with
    | unloaded => simpa [VaultSection.update] using h
    | onchainTransactions => simpa [VaultSection.update] using h
    | delegate signer warning =>
      simp only [VaultSection.update]
      cases hsp : (signer.update decode msg).signed_psbt <;> simp [hsp, ackFlagsOk]
    | acknowledge em eu ca warning signer =>
      have hk2 := SignState.update_kind decode signer msg
      simp only [VaultSection.update]
      rw [ackFlagsOk_acknowledge] at h
      cases hsp : (signer.update decode msg).signed_psbt with
      | none =>
        simp only [hsp]
        rw [ackFlagsOk_acknowledge, hk2]
        exact h
      | some psbt =>
        simp only [hsp]
        cases hk : signer.transaction_kind with
        | unvault => rw [hk] at h; simp at h
        | spend => rw [hk] at h; simp at h
        | emergency =>
          rw [hk] at h
          rw [hk2, hk]
          simp only [Bool.and_eq_true, Bool.not_eq_true'] at h
          rw [ackFlagsOk_acknowledge]
          simp [SignState.new, h.1.2, h.2]
        | emergencyUnvault =>
          rw [hk] at h
          rw [hk2, hk]
          simp only [Bool.and_eq_true, Bool.not_eq_true'] at h
          rw [ackFlagsOk_acknowledge]
          simp [SignState.new, h.1.1, h.2]
        | cancel =>
          rw [hk] at h
          rw [hk2, hk]
          simp only [Bool.and_eq_true] at h
          rw [ackFlagsOk_acknowledge, hk2, hk]
          simp [h.1, h.2]

theorem ackReachable_flagsOk (decode : String → Option Psbt) (outpoint : String)
    (s : VaultSection) (h : AckReachable decode outpoint s) : ackFlagsOk s = true := by
  induction h with
  | init txs => simp [VaultSection.new_ack_section, ackFlagsOk, SignState.new]
  | step s m hs ih => exact ackFlagsOk_update decode outpoint s m ih

/-- C1: in the Acknowledge revocation chain, members become signed strictly in
order: for every sequence of events, EmergencyUnvault is never flagged signed
while Emergency is unsigned, and Cancel is never flagged signed while
EmergencyUnvault is unsigned (so a cancel-signing event arriving earlier
cannot have marked it). -/
theorem revocation_chain_signed_in_order
    (decode : String → Option Psbt) (outpoint : String) (s : VaultSection)
    (hreach : AckReachable decode outpoint s)
    (em eu ca : Psbt × Bool) (w : Option UiError) (sg : SignState)
    (hs : s = VaultSection.acknowledge em eu ca w sg) :
    (eu.2 = true → em.2 = true) ∧ (ca.2 = true → em.2 = true ∧ eu.2 = true) := by
  have hok := ackReachable_flagsOk decode outpoint s hreach
  subst hs
  rw [ackFlagsOk_acknowledge] at hok
  cases hk : sg.transaction_kind <;> rw [hk] at hok <;>
    simp only [Bool.and_eq_true, Bool.not_eq_true'] at hok <;> simp_all

/-- Witness for C1 at the freshly seeded chain: all three members unsigned. -/
theorem revocation_chain_signed_in_order_witness :
    (false = true → false = true) ∧ (false = true → false = true ∧ false = true) :=
  revocation_chain_signed_in_order (fun _ => none) ("op1")
    (VaultSection.new_ack_section ⟨⟨1, 1⟩, ⟨2, 2⟩, ⟨3, 3⟩⟩)
    (AckReachable.init ⟨⟨1, 1⟩, ⟨2, 2⟩, ⟨3, 3⟩⟩)
    (⟨1, 1⟩, false) (⟨2, 2⟩, false) (⟨3, 3⟩, false) none
    (SignState.new ⟨1, 1⟩ TransactionKind.emergency) rfl

/-- Run a list of messages through VaultSection::update, collecting the
returned daemon commands in order. -/
def VaultSection.run (decode : String → Option Psbt) (outpoint : String)
    (s : VaultSection) : List VaultMessage → VaultSection × List VaultCmd
  | [] => (s, [])
  | m :: ms =>
    let r := VaultSection.update decode outpoint s m
    let rest := VaultSection.run decode outpoint r.1 ms
    (rest.1, r.2 :: rest.2)

def VaultCmd.isSetRevocationTxs : VaultCmd → Bool
  | VaultCmd.setRevocationTxs _ _ _ _ => true
  | _ => false

/-- Example decoder used by the concrete executions: three pasted payloads
decode to signed versions of the three revocation transactions. -/
def decodeEx : String → Option Psbt := fun text =>
  if text = "E" then some ⟨1, 10⟩
  else if text = "U" then some ⟨2, 20⟩
  else if text = "C" then some ⟨3, 30⟩
  else none

/-- Example unsigned revocation triple. -/
def revTxsEx : RevocationTransactions := ⟨⟨1, 1⟩, ⟨2, 2⟩, ⟨3, 3⟩⟩

/-- Event sequence signing Emergency, EmergencyUnvault and Cancel through the
indirect method, followed by one extra cancel-signing event. -/
def ackMsgsEx : List VaultMessage :=
  [VaultMessage.sign SignMessage.changeMethod,
   VaultMessage.sign (SignMessage.psbtEdited ("E")),
   VaultMessage.sign SignMessage.sign,
   VaultMessage.sign SignMessage.changeMethod,
   VaultMessage.sign (SignMessage.psbtEdited ("U")),
   VaultMessage.sign SignMessage.sign,
   VaultMessage.sign SignMessage.changeMethod,
   VaultMessage.sign (SignMessage.psbtEdited ("C")),
   VaultMessage.sign SignMessage.sign,
   VaultMessage.sign SignMessage.sign]

/-- Counterexample to C2: on this event sequence over one revocation chain the
section issues two setRevocationTransactions daemon calls, because the extra
cancel-signing event received after the first submission re-enters the cancel
branch (no in-flight flag gates it). -/
theorem setRevocationTxs_double_call_cex :
    ((VaultSection.run decodeEx ("op1") (VaultSection.new_ack_section revTxsEx)
      ackMsgsEx).2.countP VaultCmd.isSetRevocationTxs) = 2 := by decide

/-- C2 amended: whenever a state satisfying the signing-order invariant (which
every reachable chain state does) emits a setRevocationTransactions command,
the chain at that point has all three members flagged signed, the command
carries exactly the three stored signed payloads and targets the section
outpoint, and the active signer is the Cancel collector; the source has no
in-flight flag, so a repeated cancel-signing event issues a second such call. -/
theorem setRevocationTxs_emission_carries_full_chain
    (decode : String → Option Psbt) (outpoint : String) (s : VaultSection)
    (m : VaultMessage) (s2 : VaultSection) (op2 : String) (e u c : Psbt)
    (hok : ackFlagsOk s = true)
    (hu : VaultSection.update decode outpoint s m =
      (s2, VaultCmd.setRevocationTxs op2 e u c)) :
    op2 = outpoint ∧ ∃ w sg,
      s2 = VaultSection.acknowledge (e, true) (u, true) (c, true) w sg ∧
      sg.transaction_kind = TransactionKind.cancel := by
  cases m with
  | other => simp [VaultSection.update] at hu
  | signed res => cases s <;> cases res <;> simp [VaultSection.update] at hu
  | sign msg =>
    cases s with
    | unloaded => simp [VaultSection.update] at hu
    | onchainTransactions => simp [VaultSection.update] at hu
    | delegate signer warning =>
      cases hsp : (signer.update decode msg).signed_psbt <;>
        simp [VaultSection.update, hsp] at hu
    | acknowledge em eu ca warning signer =>
      have hk2 := SignState.update_kind decode signer msg
      cases hsp : (signer.update decode msg).signed_psbt with
      | none => simp [VaultSection.update, hsp] at hu
      | some psbt =>
        cases hk : signer.transaction_kind with
        | unvault => rw [hk] at hk2; simp [VaultSection.update, hsp, hk2] at hu
        | spend => rw [hk] at hk2; simp [VaultSection.update, hsp, hk2] at hu
        | emergency => rw [hk] at hk2; simp [VaultSection.update, hsp, hk2] at hu
        | emergencyUnvault => rw [hk] at hk2; simp [VaultSection.update, hsp, hk2] at hu
        | cancel =>
          rw [hk] at hk2
          obtain ⟨em1, em2⟩ := em
          obtain ⟨eu1, eu2⟩ := eu
          simp only [VaultSection.update, hsp, hk2] at hu
          rw [ackFlagsOk_acknowledge, hk] at hok
          simp only [Bool.and_eq_true] at hok
          obtain ⟨hem, heu⟩ := hok
          subst hem
          subst heu
          injection hu with h1 h2
          subst h1
          injection h2 with hop he hu2 hc
          subst hop
          subst he
          subst hu2
          subst hc
          exact ⟨rfl, warning, signer.update decode msg, rfl, hk2⟩

/-- Acknowledge state just before the cancel member is signed: Emergency and
EmergencyUnvault already signed, the Cancel collector active with the pasted
payload in its input box. -/
def ackCancelReadyEx : VaultSection :=
  VaultSection.acknowledge (⟨1, 10⟩, true) (⟨2, 20⟩, true) (⟨3, 3⟩, false) none
    { original_psbt := ⟨3, 3⟩
      signed_psbt := none
      transaction_kind := TransactionKind.cancel
      sharing_status := SignatureSharingStatus.unshared
      method := SignMethod.indirectSignature none ("C") }

/-- Witness for the amended C2 at a concrete cancel-signing event. -/
theorem setRevocationTxs_emission_carries_full_chain_witness :
    ("op1" : String) = ("op1") ∧ ∃ w sg,
      VaultSection.acknowledge (⟨1, 10⟩, true) (⟨2, 20⟩, true) (⟨3, 30⟩, true) none
          { original_psbt := ⟨3, 3⟩
            signed_psbt := some ⟨3, 30⟩
            transaction_kind := TransactionKind.cancel
            sharing_status := SignatureSharingStatus.unshared
            method := SignMethod.indirectSignature none ("C") } =
        VaultSection.acknowledge ((⟨1, 10⟩ : Psbt), true) ((⟨2, 20⟩ : Psbt), true)
          ((⟨3, 30⟩ : Psbt), true) w sg ∧
      sg.transaction_kind = TransactionKind.cancel :=
  setRevocationTxs_emission_carries_full_chain decodeEx ("op1") ackCancelReadyEx
    (VaultMessage.sign SignMessage.sign)
    (VaultSection.acknowledge (⟨1, 10⟩, true) (⟨2, 20⟩, true) (⟨3, 30⟩, true) none
      { original_psbt := ⟨3, 3⟩
        signed_psbt := some ⟨3, 30⟩
        transaction_kind := TransactionKind.cancel
        sharing_status := SignatureSharingStatus.unshared
        method := SignMethod.indirectSignature none ("C") })
    ("op1") ⟨1, 10⟩ ⟨2, 20⟩ ⟨3, 30⟩ (by decide) (by decide)

/-- C9: on a failed revocation-chain daemon submission the Acknowledge section
retains all three signed transactions and the signer unchanged and surfaces a
persistent warning; on daemon success only the sharing status of the collector
moves to its terminal success display state. -/
theorem ack_daemon_result_retains_chain
    (decode : String → Option Psbt) (outpoint : String)
    (em eu ca : Psbt × Bool) (w : Option UiError) (sg : SignState) (e : String) :
    VaultSection.update decode outpoint (VaultSection.acknowledge em eu ca w sg)
        (VaultMessage.signed (RpcResult.err e)) =
      (VaultSection.acknowledge em eu ca (some (UiError.revaultDError e)) sg,
        VaultCmd.none) ∧
    VaultSection.update decode outpoint (VaultSection.acknowledge em eu ca w sg)
        (VaultMessage.signed (RpcResult.ok ())) =
      (VaultSection.acknowledge em eu ca w
          { sg with sharing_status := SignatureSharingStatus.success },
        VaultCmd.none) :=
  ⟨rfl, rfl⟩

/-- C3: in the indirect method, submitting a text that does not decode to a
transaction sets the decode-error warning (please enter a valid PSBT), leaves
the signed slot empty and changes nothing else in the collector. -/
theorem sign_submit_decode_error
    (decode : String → Option Psbt) (s : SignState) (w : Option String) (input : String)
    (hm : s.method = SignMethod.indirectSignature w input)
    (hne : input.isEmpty = false)
    (hd : decode input = none) :
    s.update decode SignMessage.sign =
      { s with
          signed_psbt := none
          method := SignMethod.indirectSignature (some warnEnterValidPsbt) input } := by
  simp [SignState.update, hm, hne, hd]

/-- Witness for C3 on a concrete malformed payload. -/
theorem sign_submit_decode_error_witness :
    SignState.update (fun _ => none)
        { original_psbt := ⟨7, 7⟩
          signed_psbt := none
          transaction_kind := TransactionKind.unvault
          sharing_status := SignatureSharingStatus.unshared
          method := SignMethod.indirectSignature none ("bad") }
        SignMessage.sign =
      { original_psbt := ⟨7, 7⟩
        signed_psbt := none
        transaction_kind := TransactionKind.unvault
        sharing_status := SignatureSharingStatus.unshared
        method := SignMethod.indirectSignature (some warnEnterValidPsbt) ("bad") } :=
  sign_submit_decode_error (fun _ => none)
    { original_psbt := ⟨7, 7⟩
      signed_psbt := none
      transaction_kind := TransactionKind.unvault
      sharing_status := SignatureSharingStatus.unshared
      method := SignMethod.indirectSignature none ("bad") }
    none ("bad") rfl (by decide) rfl

/-- C4: in the indirect method, submitting a text that decodes to a
transaction whose unsigned identity differs from the original one sets the
identity-mismatch warning and leaves the signed slot empty. -/
theorem sign_submit_identity_mismatch
    (decode : String → Option Psbt) (s : SignState) (w : Option String)
    (input : String) (sp : Psbt)
    (hm : s.method = SignMethod.indirectSignature w input)
    (hne : input.isEmpty = false)
    (hd : decode input = some sp)
    (hid : sp.txid ≠ s.original_psbt.txid) :
    s.update decode SignMessage.sign =
      { s with
          signed_psbt := none
          method := SignMethod.indirectSignature (some warnNotTargeted) input } := by
  simp [SignState.update, hm, hne, hd, hid]

/-- Witness for C4 on a concrete mismatching payload. -/
theorem sign_submit_identity_mismatch_witness :
    SignState.update (fun _ => some ⟨9, 90⟩)
        { original_psbt := ⟨7, 7⟩
          signed_psbt := none
          transaction_kind := TransactionKind.unvault
          sharing_status := SignatureSharingStatus.unshared
          method := SignMethod.indirectSignature none ("other") }
        SignMessage.sign =
      { original_psbt := ⟨7, 7⟩
        signed_psbt := none
        transaction_kind := TransactionKind.unvault
        sharing_status := SignatureSharingStatus.unshared
        method := SignMethod.indirectSignature (some warnNotTargeted) ("other") } :=
  sign_submit_identity_mismatch (fun _ => some ⟨9, 90⟩)
    { original_psbt := ⟨7, 7⟩
      signed_psbt := none
      transaction_kind := TransactionKind.unvault
      sharing_status := SignatureSharingStatus.unshared
      method := SignMethod.indirectSignature none ("other") }
    none ("other") ⟨9, 90⟩ rfl (by decide) rfl (by decide)

/-- C10: in the indirect method, submitting while the input text is empty is a
complete no-op: the collector state is returned unchanged, so no decode result
is applied and no warning is set. -/
theorem sign_submit_empty_input_noop
    (decode : String → Option Psbt) (s : SignState) (w : Option String)
    (hm : s.method = SignMethod.indirectSignature w ("")) :
    s.update decode SignMessage.sign = s := by
  have he : ("" : String).isEmpty = true := rfl
  simp [SignState.update, hm, he]

/-- Witness for C10 on a collector with an empty input box. -/
theorem sign_submit_empty_input_noop_witness :
    SignState.update (fun _ => some ⟨9, 90⟩)
        { original_psbt := ⟨7, 7⟩
          signed_psbt := none
          transaction_kind := TransactionKind.unvault
          sharing_status := SignatureSharingStatus.unshared
          method := SignMethod.indirectSignature none ("") }
        SignMessage.sign =
      { original_psbt := ⟨7, 7⟩
        signed_psbt := none
        transaction_kind := TransactionKind.unvault
        sharing_status := SignatureSharingStatus.unshared
        method := SignMethod.indirectSignature none ("") } :=
  sign_submit_empty_input_noop (fun _ => some ⟨9, 90⟩)
    { original_psbt := ⟨7, 7⟩
      signed_psbt := none
      transaction_kind := TransactionKind.unvault
      sharing_status := SignatureSharingStatus.unshared
      method := SignMethod.indirectSignature none ("") }
    none rfl

/-- Warning invariant of the collector: whenever the indirect method carries a
warning, the current input text is nonempty and submitting it fails (it does
not decode, or it decodes to a transaction with a different identity). -/
def signWarnInv (decode : String → Option Psbt) (s : SignState) : Prop :=
  ∀ w input, s.method = SignMethod.indirectSignature (some w) input →
    input.isEmpty = false ∧
      (decode input = none ∨
        ∃ sp, decode input = some sp ∧ sp.txid ≠ s.original_psbt.txid)

theorem signWarnInv_new (decode : String → Option Psbt) (p : Psbt)
    (k : TransactionKind) : signWarnInv decode (SignState.new p k) := by
  intro w input h
  simp [SignState.new] at h

theorem signWarnInv_update (decode : String → Option Psbt) (s : SignState)
    (m : SignMessage) (h : signWarnInv decode s) :
    signWarnInv decode (s.update decode m) := by
  intro w input hm
  rw [SignState.update_original]
  cases m with
  | success => exact h w input hm
  | other => exact h w input hm
  | psbtEdited p =>
    cases hmd : s.method with
    | directSignature =>
      have hupd : s.update decode (SignMessage.psbtEdited p) = s := by
        simp [SignState.update, hmd]
      rw [hupd] at hm
      exact h w input hm
    | indirectSignature w0 input0 =>
      have hupd : s.update decode (SignMessage.psbtEdited p) =
          { s with method := SignMethod.indirectSignature none p } := by
        simp [SignState.update, hmd]
      rw [hupd] at hm
      simp at hm
  | changeMethod =>
    cases hmd : s.method with
    | directSignature =>
      have hupd : s.update decode SignMessage.changeMethod =
          { s with method := SignMethod.indirectSignature none ("") } := by
        simp [SignState.update, hmd]
      rw [hupd] at hm
      simp at hm
    | indirectSignature w0 input0 =>
      have hupd : s.update decode SignMessage.changeMethod =
          { s with method := SignMethod.directSignature } := by
        simp [SignState.update, hmd]
      rw [hupd] at hm
      simp at hm
  | sign =>
    cases hmd : s.method with
    | directSignature =>
      have hupd : s.update decode SignMessage.sign = s := by
        simp [SignState.update, hmd]
      rw [hupd] at hm
      exact h w input hm
    | indirectSignature w0 input0 =>
      by_cases hemp : input0.isEmpty
      · have hupd : s.update decode SignMessage.sign = s := by
          simp [SignState.update, hmd, hemp]
        rw [hupd] at hm
        exact h w input hm
      · cases hd : decode input0 with
        | none =>
          have hupd : s.update decode SignMessage.sign =
              { s with
                  signed_psbt := none
                  method := SignMethod.indirectSignature (some warnEnterValidPsbt) input0 } := by
            simp [SignState.update, hmd, hemp, hd]
          rw [hupd] at hm
          simp only [SignMethod.indirectSignature.injEq, Option.some.injEq] at hm
          obtain ⟨hw, hin⟩ := hm
          subst hin
          exact ⟨Bool.eq_false_iff.mpr hemp, Or.inl hd⟩
        | some sp =>
          by_cases hid : sp.txid = s.original_psbt.txid
          · have hupd : s.update decode SignMessage.sign =
                { s with signed_psbt := some sp } := by
              simp [SignState.update, hmd, hemp, hd, hid]
            rw [hupd] at hm
            exact h w input hm
          · have hupd : s.update decode SignMessage.sign =
                { s with
                    signed_psbt := none
                    method := SignMethod.indirectSignature (some warnNotTargeted) input0 } := by
              simp [SignState.update, hmd, hemp, hd, hid]
            rw [hupd] at hm
            simp only [SignMethod.indirectSignature.injEq, Option.some.injEq] at hm
            obtain ⟨hw, hin⟩ := hm
            subst hin
            exact ⟨Bool.eq_false_iff.mpr hemp, Or.inr ⟨sp, hd, hid⟩⟩

theorem signReachable_warnInv (decode : String → Option Psbt) (s : SignState)
    (h : SignReachable decode s) : signWarnInv decode s := by
  induction h with
  | init p k => exact signWarnInv_new decode p k
  | step s m hs ih => exact signWarnInv_update decode s m ih

/-- C5: in the indirect method, for every reachable collector state, submitting
a text that decodes to a transaction with the same unsigned identity as the
original stores the decoded value in the signed slot, and the warning is none
after the call (the pre-state warning is already none, and the success branch
does not set one). -/
theorem sign_submit_success_stores_and_clears
    (decode : String → Option Psbt) (s : SignState)
    (hreach : SignReachable decode s) (w : Option String) (input : String) (sp : Psbt)
    (hm : s.method = SignMethod.indirectSignature w input)
    (hne : input.isEmpty = false)
    (hd : decode input = some sp)
    (hid : sp.txid = s.original_psbt.txid) :
    s.update decode SignMessage.sign = { s with signed_psbt := some sp } ∧ w = none := by
  have hinv := signReachable_warnInv decode s hreach
  have hw : w = none := by
    cases w with
    | none => rfl
    | some msg =>
      obtain ⟨_, hcase⟩ := hinv msg input hm
      cases hcase with
      | inl hnone => rw [hd] at hnone; exact absurd hnone (by simp)
      | inr hex =>
        obtain ⟨sp2, hd2, hne2⟩ := hex
        rw [hd] at hd2
        injection hd2 with hh
        subst hh
        exact absurd hid hne2
  refine ⟨?_, hw⟩
  simp [SignState.update, hm, hne, hd, hid]

/-- Example decoder for the C5 witness: the pasted text decodes to a signed
version of the transaction with identity 5. -/
def decodeSameIdEx : String → Option Psbt := fun text =>
  if text = "g" then some ⟨5, 50⟩ else none

/-- Collector state reached by switching to the indirect method and pasting
the payload text. -/
def signReadyEx : SignState :=
  { original_psbt := ⟨5, 5⟩
    signed_psbt := none
    transaction_kind := TransactionKind.unvault
    sharing_status := SignatureSharingStatus.unshared
    method := SignMethod.indirectSignature none ("g") }

/-- Witness for C5 on a concrete matching payload. -/
theorem sign_submit_success_stores_and_clears_witness :
    SignState.update decodeSameIdEx signReadyEx SignMessage.sign =
        { signReadyEx with signed_psbt := some ⟨5, 50⟩ } ∧
      (none : Option String) = none := by
  have h0 : SignReachable decodeSameIdEx (SignState.new ⟨5, 5⟩ TransactionKind.unvault) :=
    SignReachable.init ⟨5, 5⟩ TransactionKind.unvault
  have h1 := SignReachable.step (SignState.new ⟨5, 5⟩ TransactionKind.unvault)
    SignMessage.changeMethod h0
  have h2 := SignReachable.step
    ((SignState.new ⟨5, 5⟩ TransactionKind.unvault).update decodeSameIdEx
      SignMessage.changeMethod)
    (SignMessage.psbtEdited ("g")) h1
  exact sign_submit_success_stores_and_clears decodeSameIdEx signReadyEx h2
    none ("g") ⟨5, 50⟩ rfl (by decide) (by decide) rfl

/-- Vault statuses.  Modelled from the spec list of the server-authoritative
status enum (the defining revaultd model module is not part of the sources). -/
inductive VaultStatus where
  | unconfirmed
  | funded
  | securing
  | secured
  | activating
  | active
  | unvaulting
  | unvaulted
  | canceling
  | canceled
  | emergencyVaulting
  | emergencyVaulted
  | spending
  | spent
  | spendable
deriving Repr, DecidableEq

/-- Vault record.  Modelled from the spec data model (outpoint identity,
status, amount in satoshis); the defining revaultd model module is not part
of the sources. -/
structure Vault where
  outpoint : String
  status : VaultStatus
  amount : Nat
deriving Repr, DecidableEq

/-- ManagerHomeState::calculate_balance from src/ui/state/manager.rs, as a
pure function of the vault list returning the (active, inactive) pair. -/
def calculate_balance_manager (vaults : List Vault) : Nat × Nat :=
  vaults.foldl
    (fun acc vault =>
      match vault.status with
      | VaultStatus.active | VaultStatus.unvaulting | VaultStatus.unvaulted =>
        (acc.1 + vault.amount, acc.2)
      | VaultStatus.secured | VaultStatus.funded | VaultStatus.unconfirmed =>
        (acc.1, acc.2 + vault.amount)
      | _ => acc)
    (0, 0)

/-- HashMap entry update used by StakeholderHomeState::calculate_balance: the
per-status (count, amount) entry is incremented in place when present and
inserted otherwise. -/
def balanceInsert (balance : List (VaultStatus × (Nat × Nat))) (st : VaultStatus)
    (amount : Nat) : List (VaultStatus × (Nat × Nat)) :=
  if balance.any (fun entry => entry.1 = st) then
    balance.map (fun entry =>
      if entry.1 = st then (entry.1, (entry.2.1 + 1, entry.2.2 + amount)) else entry)
  else balance ++ [(st, (1, amount))]

/-- StakeholderHomeState::calculate_balance from src/ui/state/stakeholder.rs:
per-status (count, amount) aggregation skipping Unconfirmed, Spent and
Spending vaults, the HashMap represented as an association list. -/
def calculate_balance_stakeholder (vaults : List Vault) :
    List (VaultStatus × (Nat × Nat)) :=
  vaults.foldl
    (fun balance vault =>
      if vault.status = VaultStatus.unconfirmed ∨ vault.status = VaultStatus.spent ∨
          vault.status = VaultStatus.spending then balance
      else balanceInsert balance vault.status vault.amount)
    []

/-- Lookup of a status entry in the association-list balance map. -/
def statusLookup (balance : List (VaultStatus × (Nat × Nat))) (st : VaultStatus) :
    Option (Nat × Nat) :=
  match balance with
  | [] => none
  | entry :: rest => if entry.1 = st then some entry.2 else statusLookup rest st

/-- Sum of the amounts of the vaults whose status lies in the given set,
stated the way the spec states the bucket sums. -/
def sumWithStatusIn (statuses : List VaultStatus) (vaults : List Vault) : Nat :=
  ((vaults.filter (fun v => v.status ∈ statuses)).map Vault.amount).sum

theorem calculate_balance_manager_go (vaults : List Vault) (a b : Nat) :
    vaults.foldl
      (fun acc vault =>
        match vault.status with
        | VaultStatus.active | VaultStatus.unvaulting | VaultStatus.unvaulted =>
          (acc.1 + vault.amount, acc.2)
        | VaultStatus.secured | VaultStatus.funded | VaultStatus.unconfirmed =>
          (acc.1, acc.2 + vault.amount)
        | _ => acc)
      (a, b) =
    (a + sumWithStatusIn [VaultStatus.active, VaultStatus.unvaulting, VaultStatus.unvaulted] vaults,
      b + sumWithStatusIn [VaultStatus.secured, VaultStatus.funded, VaultStatus.unconfirmed] vaults) := by
  induction vaults generalizing a b with
  | nil => simp [sumWithStatusIn]
  | cons v vs ih =>
    cases hst : v.status <;>
      simp [sumWithStatusIn, List.filter_cons, hst, ih, Nat.add_assoc, Nat.add_comm,
        Nat.add_left_comm]

theorem statusLookup_map_modify (l : List (VaultStatus × (Nat × Nat)))
    (k st : VaultStatus) (amount : Nat) (hne : k ≠ st) :
    statusLookup
      (l.map (fun entry =>
        if entry.1 = k then (entry.1, (entry.2.1 + 1, entry.2.2 + amount)) else entry)) st =
    statusLookup l st := by
  induction l with
  | nil => rfl
  | cons entry rest ih =>
    simp only [List.map_cons]
    by_cases he : entry.1 = k
    · have he2 : ¬entry.1 = st := fun hh => hne (by rw [← he]; exact hh)
      rw [if_pos he]
      simp only [statusLookup]
      rw [if_neg he2, if_neg he2]
      exact ih
    · rw [if_neg he]
      simp only [statusLookup]
      by_cases hes : entry.1 = st
      · rw [if_pos hes, if_pos hes]
      · rw [if_neg hes, if_neg hes]
        exact ih

theorem statusLookup_append_single (l : List (VaultStatus × (Nat × Nat)))
    (k st : VaultStatus) (v : Nat × Nat) (hne : k ≠ st) :
    statusLookup (l ++ [(k, v)]) st = statusLookup l st := by
  induction l with
  | nil => simp [statusLookup, hne]
  | cons entry rest ih =>
    simp only [List.cons_append, statusLookup]
    by_cases hes : entry.1 = st
    · rw [if_pos hes, if_pos hes]
    · rw [if_neg hes, if_neg hes]
      exact ih

theorem statusLookup_balanceInsert_ne (balance : List (VaultStatus × (Nat × Nat)))
    (k st : VaultStatus) (amount : Nat) (hne : k ≠ st) :
    statusLookup (balanceInsert balance k amount) st = statusLookup balance st := by
  unfold balanceInsert
  split
  · exact statusLookup_map_modify balance k st amount hne
  · exact statusLookup_append_single balance k st (1, amount) hne

theorem statusLookup_skipped_go (vaults : List Vault)
    (balance : List (VaultStatus × (Nat × Nat))) (st : VaultStatus)
    (hst : st = VaultStatus.unconfirmed ∨ st = VaultStatus.spent ∨ st = VaultStatus.spending)
    (hb : statusLookup balance st = none) :
    statusLookup
      (vaults.foldl
        (fun balance vault =>
          if vault.status = VaultStatus.unconfirmed ∨ vault.status = VaultStatus.spent ∨
              vault.status = VaultStatus.spending then balance
          else balanceInsert balance vault.status vault.amount)
        balance) st = none := by
  induction vaults generalizing balance with
  | nil => exact hb
  | cons v vs ih =>
    simp only [List.foldl_cons]
    by_cases hskip : v.status = VaultStatus.unconfirmed ∨ v.status = VaultStatus.spent ∨
        v.status = VaultStatus.spending
    · rw [if_pos hskip]
      exact ih balance hb
    · rw [if_neg hskip]
      apply ih
      rw [statusLookup_balanceInsert_ne balance v.status st v.amount
        (fun heq => hskip (by rw [heq]; exact hst))]
      exact hb

/-- C8: balance aggregation is a pure function of the vault list: the manager
active bucket sums the amounts of vaults with status Active, Unvaulting or
Unvaulted, the inactive bucket those with status Secured, Funded or
Unconfirmed, every other status contributes to neither bucket, and the
stakeholder per-status aggregation has no entry for Unconfirmed, Spent or
Spending. -/
theorem balance_aggregation_buckets (vaults : List Vault) :
    (calculate_balance_manager vaults).1 =
        sumWithStatusIn [VaultStatus.active, VaultStatus.unvaulting, VaultStatus.unvaulted]
          vaults ∧
    (calculate_balance_manager vaults).2 =
        sumWithStatusIn [VaultStatus.secured, VaultStatus.funded, VaultStatus.unconfirmed]
          vaults ∧
    statusLookup (calculate_balance_stakeholder vaults) VaultStatus.unconfirmed = none ∧
    statusLookup (calculate_balance_stakeholder vaults) VaultStatus.spent = none ∧
    statusLookup (calculate_balance_stakeholder vaults) VaultStatus.spending = none := by
  refine ⟨?_, ?_, ?_, ?_, ?_⟩
  · rw [calculate_balance_manager, calculate_balance_manager_go]
    simp
  · rw [calculate_balance_manager, calculate_balance_manager_go]
    simp
  · exact statusLookup_skipped_go vaults [] VaultStatus.unconfirmed (Or.inl rfl) rfl
  · exact statusLookup_skipped_go vaults [] VaultStatus.spent (Or.inr (Or.inl rfl)) rfl
  · exact statusLookup_skipped_go vaults [] VaultStatus.spending (Or.inr (Or.inr rfl)) rfl

/-- ManagerSendOutput from src/ui/state/manager.rs, view dropped. -/
structure ManagerSendOutput where
  address : String
  amount : String
  warning_address : Bool
  warning_amount : Bool
deriving Repr, DecidableEq

/-- ManagerSendOutput::new from src/ui/state/manager.rs. -/
def ManagerSendOutput.new : ManagerSendOutput :=
  { address := (""), amount := (""), warning_address := false, warning_amount := false }

/-- ManagerSendOutput::amount from src/ui/state/manager.rs: an empty text is
zero satoshis, otherwise the external bitcoin amount parser (parameter
parseAmount, none on failure) converts the text to satoshis. -/
def ManagerSendOutput.amountSats (parseAmount : String → Option Nat)
    (o : ManagerSendOutput) : Option Nat :=
  if o.amount.isEmpty then some 0 else parseAmount o.amount

/-- RecipientMessage from the ui message module as handled by
ManagerSendOutput::update and the state update. -/
inductive RecipientMessage where
  | delete
  | addressEdited (address : String)
  | amountEdited (amount : String)
deriving Repr, DecidableEq

/-- ManagerSendOutput::update from src/ui/state/manager.rs.  validAddress is
the external bitcoin address parser (true when from_str succeeds). -/
def ManagerSendOutput.updateMsg (parseAmount : String → Option Nat)
    (validAddress : String → Bool) (o : ManagerSendOutput)
    (message : RecipientMessage) : ManagerSendOutput :=
  match message with
  | RecipientMessage.addressEdited address =>
    let o := { o with address := address }
    if o.address.isEmpty then o
    else { o with warning_address := !validAddress o.address }
  | RecipientMessage.amountEdited amount =>
    let o := { o with amount := amount }
    if o.amount.isEmpty then o
    else { o with warning_amount := (o.amountSats parseAmount).isNone }
  | RecipientMessage.delete => o

/-- InputMessage from the ui message module. -/
inductive InputMessage where
  | selected (selected : Bool)
deriving Repr, DecidableEq

/-- ManagerSendInput from src/ui/state/manager.rs, view dropped. -/
structure ManagerSendInput where
  vault : Vault
  selected : Bool
deriving Repr, DecidableEq

/-- ManagerSendInput::new from src/ui/state/manager.rs. -/
def ManagerSendInput.new (vault : Vault) : ManagerSendInput :=
  { vault := vault, selected := false }

/-- ManagerSendInput::update from src/ui/state/manager.rs. -/
def ManagerSendInput.updateMsg (i : ManagerSendInput) (message : InputMessage) :
    ManagerSendInput :=
  match message with
  | InputMessage.selected selected => { i with selected := selected }

/-- ManagerSendStep from src/ui/state/manager.rs, views dropped. -/
inductive ManagerSendStep where
  | welcomeUser
  | selectOutputs
  | selectInputs
  | selectFee
  | sign (signer : SignState)
  | success
deriving Repr, DecidableEq

/-- SpendTx payload of a successful getSpendTransaction daemon response. -/
structure SpendTx where
  spend_tx : Psbt
  feerate : Nat
deriving Repr, DecidableEq

/-- ManagerCreateSendTransactionState from src/ui/state/manager.rs, daemon
handle and views dropped. -/
structure ManagerCreateSendTransactionState where
  warning : Option UiError
  vaults : List ManagerSendInput
  outputs : List ManagerSendOutput
  feerate : Nat
  psbt : Option (Psbt × Nat)
  processing : Bool
  step : ManagerSendStep
deriving Repr, DecidableEq

/-- ManagerCreateSendTransactionState::new from src/ui/state/manager.rs. -/
def ManagerCreateSendTransactionState.new : ManagerCreateSendTransactionState :=
  { warning := none
    vaults := []
    outputs := [ManagerSendOutput.new]
    feerate := 20
    psbt := none
    processing := false
    step := ManagerSendStep.welcomeUser }

/-- ManagerCreateSendTransactionState::selected_inputs from the source. -/
def ManagerCreateSendTransactionState.selected_inputs
    (s : ManagerCreateSendTransactionState) : List Vault :=
  (s.vaults.filter (fun input => input.selected)).map (fun input => input.vault)

/-- Message variants handled by ManagerCreateSendTransactionState::update;
the remaining variants of the source Message enum hit its catch-all arm and
are represented by other. -/
inductive ManagerMessage where
  | spendTransaction (res : RpcResult SpendTx)
  | spendTxGenerate
  | spendTxFeerateEdited (feerate : Nat)
  | vaults (res : RpcResult (List Vault))
  | spendTxSigned (res : RpcResult Unit)
  | spendTxSign (msg : SignMessage)
  | next
  | previous
  | addRecipient
  | recipient (index : Nat) (msg : RecipientMessage)
  | input (index : Nat) (msg : InputMessage)
  | other
deriving Repr, DecidableEq

/-- Daemon commands ManagerCreateSendTransactionState::update can return. -/
inductive ManagerCmd where
  | none
  | getSpendTx (inputs : List String) (outputs : List (String × Nat)) (feerate : Nat)
  | updateSpendTx (psbt : Psbt)
deriving Repr, DecidableEq

/-- Per-output (address, satoshi amount) pairs of the generate branch; none
when some output amount fails to parse, in which case the source panics on
unwrap. -/
def outputsAmounts (parseAmount : String → Option Nat)
    (outputs : List ManagerSendOutput) : Option (List (String × Nat)) :=
  outputs.mapM (fun o => (o.amountSats parseAmount).map (fun a => (o.address, a)))

/-- Collection of the (address, amount) pairs into a HashMap: on an address
collision the later write wins, as with HashMap::insert. -/
def hashMapOfList (pairs : List (String × Nat)) : List (String × Nat) :=
  pairs.foldl
    (fun acc pair =>
      if acc.any (fun entry => entry.1 = pair.1) then
        acc.map (fun entry => if entry.1 = pair.1 then pair else entry)
      else acc ++ [pair])
    []

/-- List modification used for get_mut followed by an in-place update: out of
range leaves the list unchanged (get_mut returns None and nothing happens). -/
def listModify (l : List α) (i : Nat) (f : α → α) : List α :=
  match l.get? i with
  | some x => l.set i (f x)
  | none => l

/-- ManagerCreateSendTransactionState::update from src/ui/state/manager.rs.
decode stands for the base64 plus consensus parse used by the signer,
parseAmount and validAddress for the external bitcoin amount and address
parsers.  The result is none exactly where the source panics: the unwrap on
an output amount in the generate branch, the expects in the signed-ok branch,
and Vec::remove with an out-of-range index. -/
def ManagerCreateSendTransactionState.update (decode : String → Option Psbt)
    (parseAmount : String → Option Nat) (validAddress : String → Bool)
    (s : ManagerCreateSendTransactionState) (message : ManagerMessage) :
    Option (ManagerCreateSendTransactionState × ManagerCmd) :=
  match message with
  | ManagerMessage.spendTransaction res =>
    let s := { s with processing := false }
    match res with
    | RpcResult.ok tx =>
      some ({ s with psbt := some (tx.spend_tx, tx.feerate) }, ManagerCmd.none)
    | RpcResult.err e =>
      some ({ s with warning := some (UiError.revaultDError e) }, ManagerCmd.none)
  | ManagerMessage.spendTxGenerate =>
    let s := { s with processing := true, warning := none }
    let inputs := s.selected_inputs.map (fun vault => vault.outpoint)
    match outputsAmounts parseAmount s.outputs with
    | some pairs => some (s, ManagerCmd.getSpendTx inputs (hashMapOfList pairs) s.feerate)
    | none => none
  | ManagerMessage.spendTxFeerateEdited feerate =>
    if s.processing then some (s, ManagerCmd.none)
    else some ({ s with feerate := feerate, psbt := none }, ManagerCmd.none)
  | ManagerMessage.vaults res =>
    match res with
    | RpcResult.ok vlts =>
      some ({ s with vaults := vlts.map ManagerSendInput.new }, ManagerCmd.none)
    | RpcResult.err e =>
      some ({ s with warning := some (UiError.revaultDError e) }, ManagerCmd.none)
  | ManagerMessage.spendTxSigned res =>
    match res with
    | RpcResult.ok _ =>
      match s.step with
      | ManagerSendStep.sign signer =>
        match signer.signed_psbt, s.psbt with
        | some signed, some p =>
          some ({ s with psbt := some (signed, p.2), step := ManagerSendStep.success },
            ManagerCmd.none)
        | _, _ => none
      | _ => some (s, ManagerCmd.none)
    | RpcResult.err e =>
      some ({ s with warning := some (UiError.revaultDError e) }, ManagerCmd.none)
  | ManagerMessage.spendTxSign msg =>
    match s.step with
    | ManagerSendStep.sign signer =>
      let signer := signer.update decode msg
      match signer.signed_psbt with
      | some psbt =>
        some ({ s with step := ManagerSendStep.sign signer }, ManagerCmd.updateSpendTx psbt)
      | none => some ({ s with step := ManagerSendStep.sign signer }, ManagerCmd.none)
    | _ => some (s, ManagerCmd.none)
  | ManagerMessage.next =>
    match s.step with
    | ManagerSendStep.welcomeUser =>
      some ({ s with step := ManagerSendStep.selectOutputs }, ManagerCmd.none)
    | ManagerSendStep.selectOutputs =>
      some ({ s with step := ManagerSendStep.selectInputs }, ManagerCmd.none)
    | ManagerSendStep.selectInputs =>
      some ({ s with step := ManagerSendStep.selectFee }, ManagerCmd.none)
    | ManagerSendStep.selectFee =>
      match s.psbt with
      | some p =>
        some ({ s with step := ManagerSendStep.sign (SignState.new p.1 TransactionKind.spend) },
          ManagerCmd.none)
      | none => some (s, ManagerCmd.none)
    | _ => some (s, ManagerCmd.none)
  | ManagerMessage.previous =>
    let step :=
      match s.step with
      | ManagerSendStep.selectInputs => ManagerSendStep.selectOutputs
      | ManagerSendStep.selectFee => ManagerSendStep.selectInputs
      | ManagerSendStep.sign _ => ManagerSendStep.selectFee
      | _ => ManagerSendStep.selectOutputs
    some ({ s with step := step }, ManagerCmd.none)
  | ManagerMessage.addRecipient =>
    some ({ s with outputs := s.outputs ++ [ManagerSendOutput.new] }, ManagerCmd.none)
  | ManagerMessage.recipient index msg =>
    match msg with
    | RecipientMessage.delete =>
      if index < s.outputs.length then
        some ({ s with outputs := s.outputs.eraseIdx index }, ManagerCmd.none)
      else none
    | _ =>
      some ({ s with
          psbt := none
          outputs := listModify s.outputs index
            (fun o => o.updateMsg parseAmount validAddress msg) }, ManagerCmd.none)
  | ManagerMessage.input index msg =>
    some ({ s with
        psbt := none
        vaults := listModify s.vaults index (fun i => i.updateMsg msg) }, ManagerCmd.none)
  | ManagerMessage.other => some (s, ManagerCmd.none)

/-- Counterexample to C6: from the initial builder state no input is selected
and the single default output has an empty amount, yet generate issues a
getSpendTransaction daemon call (with an empty outpoint list); no
EmptySelection failure exists in the source. -/
theorem generate_empty_selection_cex :
    ManagerCreateSendTransactionState.new.selected_inputs = [] ∧
    ManagerCreateSendTransactionState.update (fun _ => none) (fun _ => none) (fun _ => false)
        ManagerCreateSendTransactionState.new ManagerMessage.spendTxGenerate =
      some ({ ManagerCreateSendTransactionState.new with processing := true },
        ManagerCmd.getSpendTx [] [("", 0)] 20) := by decide

/-- C6 amended: generate never fails fast.  Whenever every output amount
parses (an empty amount counts as zero), it marks the state processing,
clears the warning, and issues exactly one getSpendTransaction daemon call
carrying the selected outpoints (possibly none), the address-to-amount map
(later writes win on collisions) and the feerate; when some output amount
fails to parse the source panics on unwrap instead of reporting locally. -/
theorem generate_always_calls_daemon (decode : String → Option Psbt)
    (parseAmount : String → Option Nat) (validAddress : String → Bool)
    (s : ManagerCreateSendTransactionState) :
    (∀ pairs, outputsAmounts parseAmount s.outputs = some pairs →
      ManagerCreateSendTransactionState.update decode parseAmount validAddress s
          ManagerMessage.spendTxGenerate =
        some ({ s with processing := true, warning := none },
          ManagerCmd.getSpendTx (s.selected_inputs.map (fun vault => vault.outpoint))
            (hashMapOfList pairs) s.feerate)) ∧
    (outputsAmounts parseAmount s.outputs = none →
      ManagerCreateSendTransactionState.update decode parseAmount validAddress s
          ManagerMessage.spendTxGenerate = none) := by
  constructor
  · intro pairs hp
    simp [ManagerCreateSendTransactionState.update,
      ManagerCreateSendTransactionState.selected_inputs, hp]
  · intro hp
    simp [ManagerCreateSendTransactionState.update, hp]

/-- Witness for the amended C6 on the initial builder state. -/
theorem generate_always_calls_daemon_witness :
    ManagerCreateSendTransactionState.update (fun _ => none) (fun _ => none) (fun _ => false)
        ManagerCreateSendTransactionState.new ManagerMessage.spendTxGenerate =
      some ({ ManagerCreateSendTransactionState.new with processing := true, warning := none },
        ManagerCmd.getSpendTx [] [("", 0)] 20) := by
  have h := (generate_always_calls_daemon (fun _ => none) (fun _ => none) (fun _ => false)
    ManagerCreateSendTransactionState.new).1 [("", 0)] (by decide)
  exact h

/-- Builder state holding a constructed proposal, with two recipients. -/
def proposalReadyEx : ManagerCreateSendTransactionState :=
  { warning := none
    vaults := []
    outputs := [ManagerSendOutput.new, ManagerSendOutput.new]
    feerate := 20
    psbt := some (⟨8, 80⟩, 20)
    processing := false
    step := ManagerSendStep.selectOutputs }

/-- Counterexample to C7: deleting a recipient is an edit to the outputs, yet
the stored (psbt, feerate) pair survives it, so a stale constructed proposal
remains available for signing. -/
theorem delete_recipient_keeps_stale_proposal_cex :
    ManagerCreateSendTransactionState.update (fun _ => none) (fun _ => none) (fun _ => false)
        proposalReadyEx (ManagerMessage.recipient 0 RecipientMessage.delete) =
      some ({ proposalReadyEx with outputs := [ManagerSendOutput.new] }, ManagerCmd.none) ∧
    some ((⟨8, 80⟩ : Psbt), 20) =
      ({ proposalReadyEx with outputs := [ManagerSendOutput.new] }
        : ManagerCreateSendTransactionState).psbt := by decide

/-- C7 amended: input-selection edits, recipient address or amount edits, and
feerate edits while not processing all clear the stored (psbt, feerate) pair;
feerate edits are rejected (full no-op) while processing is true; however
deleting a recipient and adding a recipient leave the stored pair in place. -/
theorem edits_clear_proposal_feerate_gated (decode : String → Option Psbt)
    (parseAmount : String → Option Nat) (validAddress : String → Bool)
    (s : ManagerCreateSendTransactionState) (feerate index : Nat)
    (rm : RecipientMessage) (im : InputMessage) :
    (s.processing = true →
      ManagerCreateSendTransactionState.update decode parseAmount validAddress s
          (ManagerMessage.spendTxFeerateEdited feerate) = some (s, ManagerCmd.none)) ∧
    (s.processing = false →
      ManagerCreateSendTransactionState.update decode parseAmount validAddress s
          (ManagerMessage.spendTxFeerateEdited feerate) =
        some ({ s with feerate := feerate, psbt := none }, ManagerCmd.none)) ∧
    (ManagerCreateSendTransactionState.update decode parseAmount validAddress s
        (ManagerMessage.input index im) =
      some ({ s with
          psbt := none
          vaults := listModify s.vaults index (fun input => input.updateMsg im) },
        ManagerCmd.none)) ∧
    (rm ≠ RecipientMessage.delete →
      ManagerCreateSendTransactionState.update decode parseAmount validAddress s
          (ManagerMessage.recipient index rm) =
        some ({ s with
            psbt := none
            outputs := listModify s.outputs index
              (fun o => o.updateMsg parseAmount validAddress rm) },
          ManagerCmd.none)) ∧
    (index < s.outputs.length →
      ManagerCreateSendTransactionState.update decode parseAmount validAddress s
          (ManagerMessage.recipient index RecipientMessage.delete) =
        some ({ s with outputs := s.outputs.eraseIdx index }, ManagerCmd.none)) ∧
    (ManagerCreateSendTransactionState.update decode parseAmount validAddress s
        ManagerMessage.addRecipient =
      some ({ s with outputs := s.outputs ++ [ManagerSendOutput.new] }, ManagerCmd.none)) := by
  refine ⟨?_, ?_, ?_, ?_, ?_, ?_⟩
  · intro hp
    simp [ManagerCreateSendTransactionState.update, hp]
  · intro hp
    simp [ManagerCreateSendTransactionState.update, hp]
  · simp [ManagerCreateSendTransactionState.update]
  · intro hrm
    cases rm with
    | delete => exact absurd rfl hrm
    | addressEdited a => simp [ManagerCreateSendTransactionState.update]
    | amountEdited a => simp [ManagerCreateSendTransactionState.update]
  · intro hlt
    simp [ManagerCreateSendTransactionState.update, hlt]
  · simp [ManagerCreateSendTransactionState.update]

/-- Witness for the amended C7: a feerate edit on the concrete builder state
holding a proposal clears the stored pair. -/
theorem edits_clear_proposal_feerate_gated_witness :
    ManagerCreateSendTransactionState.update (fun _ => none) (fun _ => none) (fun _ => false)
        proposalReadyEx (ManagerMessage.spendTxFeerateEdited 25) =
      some ({ proposalReadyEx with feerate := 25, psbt := none }, ManagerCmd.none) :=
  (edits_clear_proposal_feerate_gated (fun _ => none) (fun _ => none) (fun _ => false)
    proposalReadyEx 25 0 (RecipientMessage.addressEdited ("x"))
    (InputMessage.selected true)).2.1 rfl
